import Mathlib

/-!
# Brewery Search Service — verification of the search controller

Shallow embedding of `src/controllers/searchController.ts` (the draft that
paginates and reports `total`, i.e. the `SearchController` whose methods end
with `res.status(200).json({ results: paginatedResults, total: results.length })`).

Conventions of the embedding:
* A JavaScript string is a Lean `String`; `String.lowered` (per-character
  lowering) models `String.prototype.toLowerCase` and `strIncludes` models
  `String.prototype.includes`.
* An optional request parameter (`req.query.x : string | undefined`) is an
  `Option String`; the JS truthiness test `if (x)` is `optTruthy`.
* A possibly string-or-number JSON field is a `JSValue`; `jsStrictEq` models
  the `===` operator on such values (operands of different runtime types are
  never strictly equal).
* An `undefined` JSON field is `Option.none`.
* The single upstream `axios.get` call is passed in as an
  `Except AxiosError (List _)` argument: `.ok` is a 2xx response carrying the
  collection, `.error` a rejection carrying the axios error object.
-/

/-- Model of JavaScript `s.toLowerCase()`: lower each character. -/
def String.lowered (s : String) : String :=
  ⟨s.data.map Char.toLower⟩

/-- `seqLeads needle hay`: `needle` is an initial run of `hay`
(character lists). -/
def seqLeads : List Char → List Char → Bool
  | [], _ => true
  | _ :: _, [] => false
  | d :: ds, c :: cs => d == c && seqLeads ds cs

/-- `seqWithin needle hay`: `needle` occurs contiguously inside `hay`. -/
def seqWithin : List Char → List Char → Bool
  | ds, [] => ds.isEmpty
  | ds, c :: cs => seqLeads ds (c :: cs) || seqWithin ds cs

/-- Model of JavaScript `hay.includes(needle)` on strings. -/
def strIncludes (hay needle : String) : Bool :=
  seqWithin needle.toList hay.toList

/-- JS truthiness of a `string | undefined` query parameter:
present and non-empty. -/
def optTruthy : Option String → Bool
  | some s => !(s == "")
  | none => false

/-- `if (param) results = results.filter(pred(param))` — the guard-and-filter
idiom every handler uses for its optional criteria. -/
def applyOpt (p : Option String) (pred : String → α → Bool) (xs : List α) : List α :=
  if optTruthy p then xs.filter (pred (p.getD "")) else xs

/-- A JSON scalar that may arrive from upstream as a number or as a string. -/
inductive JSValue where
  | num (n : Int)
  | str (s : String)
deriving DecidableEq, Repr

/-- JavaScript strict equality `===` restricted to the scalar shapes we model:
equal runtime type and equal value; a string and a number are never `===`. -/
def jsStrictEq : JSValue → JSValue → Bool
  | .num a, .num b => a == b
  | .str a, .str b => a == b
  | _, _ => false

/-- `error.response?.data` of a failed axios call. -/
structure AxiosErrData where
  message : Option String
  errors : Option String
deriving DecidableEq, Repr

/-- `error.response` of a failed axios call. -/
structure AxiosErrResp where
  status : Nat
  data : Option AxiosErrData
deriving DecidableEq, Repr

/-- A rejected axios promise: an object with an optional structured
`response` and an optional `message` (plain objects thrown by the upstream
mock have no `message`; `new Error(m)` has `message = m` and no `response`). -/
structure AxiosError where
  response : Option AxiosErrResp
  message : Option String
deriving DecidableEq, Repr

/-- JS `a || b` on `string | undefined` values (empty string is falsy). -/
def jsOrStr (a b : Option String) : Option String :=
  match a with
  | some s => if s == "" then b else some s
  | none => b

/-- JS `a || d` where `d` is a definite (non-empty) default string. -/
def jsOrStrD (a : Option String) (d : String) : String :=
  match a with
  | some s => if s == "" then d else s
  | none => d

/-- `error.response?.status || 500`. -/
def statusOr500 (e : AxiosError) : Nat :=
  match e.response with
  | some r => if r.status == 0 then 500 else r.status
  | none => 500

/-- The JSON error body every catch block sends:
`{ message: ..., error: ... }`; `error = none` models `error: undefined`. -/
structure ErrBody where
  message : String
  error : Option String
deriving DecidableEq, Repr

/-- The catch block shared by all handlers:
`res.status(error.response?.status || 500).json({ message:
error.response?.data?.message || defaultMsg, error:
error.response?.data?.errors || error.message })`. -/
def mkErrBody (defaultMsg : String) (e : AxiosError) : ErrBody :=
  { message := jsOrStrD ((e.response.bind (·.data)).bind (·.message)) defaultMsg
    error := jsOrStr ((e.response.bind (·.data)).bind (·.errors)) e.message }

/-- `private paginate<T>(items, page, limit) { const start = (page - 1) *
limit; return items.slice(start, start + limit); }` — for the validated
positive `page`/`limit` this is drop-then-take. -/
def paginate (items : List α) (page limit : Nat) : List α :=
  (items.drop ((page - 1) * limit)).take limit

/-! ## Inventory -/

/-- `interface TasteProfile` — all three sub-fields optional. -/
structure TasteProfile where
  primaryFlavor : Option String
  sweetness : Option String
  bitterness : Option String
deriving DecidableEq, Repr

/-- `interface InventoryItem`; `tasteProfile` is accessed through optional
chaining (`item.tasteProfile?.`), so the record may lack it entirely. -/
structure InventoryItem where
  id : Nat
  name : String
  type : String
  description : String
  tasteProfile : Option TasteProfile
deriving DecidableEq, Repr

/-- Inventory `query` criterion: case-insensitive substring of `name` or
`description`. -/
def invQueryPred (q : String) (item : InventoryItem) : Bool :=
  strIncludes item.name.lowered q.lowered ||
    strIncludes item.description.lowered q.lowered

/-- Inventory `type` criterion:
`item.type.toLowerCase() === type.toLowerCase()`. -/
def invTypePred (t : String) (item : InventoryItem) : Bool :=
  item.type.lowered == t.lowered

/-- `sub?.toLowerCase() === f` for an optional sub-field `sub` and the
already-lowercased filter `f`: an absent sub-field compares as `undefined`,
which is never `===` a string. -/
def optLowerEq (sub : Option String) (f : String) : Bool :=
  match sub with
  | some s => s.lowered == f
  | none => false

/-- Inventory `flavor` criterion:
`item.tasteProfile?.primaryFlavor?.toLowerCase() === f || ...sweetness... ||
...bitterness...` with `f = flavor.toLowerCase()`. -/
def invFlavorPred (fl : String) (item : InventoryItem) : Bool :=
  let f := fl.lowered
  optLowerEq (item.tasteProfile.bind (·.primaryFlavor)) f ||
    optLowerEq (item.tasteProfile.bind (·.sweetness)) f ||
    optLowerEq (item.tasteProfile.bind (·.bitterness)) f

/-- The inventory record list after the three optional criteria, in the
order the handler applies them (`query`, then `type`, then `flavor`),
before pagination. -/
def searchInventoryFiltered (items : List InventoryItem)
    (q t fl : Option String) : List InventoryItem :=
  applyOpt fl invFlavorPred (applyOpt t invTypePred (applyOpt q invQueryPred items))

/-- Result of one `searchInventory` request. -/
inductive InvOutcome where
  | success (results : List InventoryItem) (total : Nat)
  | failure (status : Nat) (body : ErrBody)
deriving DecidableEq, Repr

/-- `SearchController.searchInventory` after parameter validation: fetch,
filter by `query`/`type`/`flavor`, paginate, answer
`{ results, total: results.length }`; on fetch rejection answer the shared
error body. -/
def searchInventory (fetch : Except AxiosError (List InventoryItem))
    (q t fl : Option String) (page limit : Nat) : InvOutcome :=
  match fetch with
  | .error e => .failure (statusOr500 e) (mkErrBody "Error searching inventory" e)
  | .ok items =>
      let results := searchInventoryFiltered items q t fl
      .success (paginate results page limit) results.length

/-- The `total` reported by an inventory response, when it was successful. -/
def invTotal : InvOutcome → Option Nat
  | .success _ t => some t
  | .failure _ _ => none

/-! ## Orders -/

/-- The identity that `auth` middleware attaches as `req.user`:
`{ id: number, email: string }` (the id is a JS number). -/
structure Caller where
  id : Int
  email : String
deriving DecidableEq, Repr

/-- `interface Order { id: number; user: string; totalPrice: number;
status: string }`.  The `user` field is declared (and observed) as a string;
`totalPrice` is kept as the raw upstream scalar because the handler never
reads it — it flows through to the response unchanged. -/
structure OrderRec where
  id : Nat
  user : String
  totalPrice : JSValue
  status : String
deriving DecidableEq, Repr

/-- Orders scope criterion: `order.user === req.user.id` — a strict
comparison of the record's string `user` field with the caller's numeric id. -/
def ordersScopePred (uid : Int) (o : OrderRec) : Bool :=
  jsStrictEq (JSValue.str o.user) (JSValue.num uid)

/-- `if (req.user) results = results.filter((order) => req.user &&
order.user === req.user.id)` — applied first, before `query`/`status`. -/
def scopeOrders (user : Option Caller) (orders : List OrderRec) : List OrderRec :=
  match user with
  | some u => orders.filter (ordersScopePred u.id)
  | none => orders

/-- Orders `query` criterion with `q = query.toLowerCase()`:
`order.id.toString() === q || order.user.toLowerCase().includes(q)`. -/
def ordersQueryPred (q : String) (o : OrderRec) : Bool :=
  Nat.repr o.id == q.lowered || strIncludes o.user.lowered q.lowered

/-- Orders `status` criterion:
`order.status.toLowerCase() === status.toLowerCase()`. -/
def ordersStatusPred (st : String) (o : OrderRec) : Bool :=
  o.status.lowered == st.lowered

/-- The order record list after scoping and the two optional criteria, in
the order the handler applies them (scope, then `query`, then `status`),
before pagination. -/
def searchOrdersFiltered (orders : List OrderRec) (user : Option Caller)
    (q st : Option String) : List OrderRec :=
  applyOpt st ordersStatusPred (applyOpt q ordersQueryPred (scopeOrders user orders))

/-- Result of one `searchOrders` request. -/
inductive OrdersOutcome where
  | success (results : List OrderRec) (total : Nat)
  | failure (status : Nat) (body : ErrBody)
deriving DecidableEq, Repr

/-- `SearchController.searchOrders` after parameter validation: fetch,
scope by `req.user`, filter by `query`/`status`, paginate, answer
`{ results, total: results.length }`. -/
def searchOrders (fetch : Except AxiosError (List OrderRec))
    (user : Option Caller) (q st : Option String) (page limit : Nat) : OrdersOutcome :=
  match fetch with
  | .error e => .failure (statusOr500 e) (mkErrBody "Error searching orders" e)
  | .ok orders =>
      let results := searchOrdersFiltered orders user q st
      .success (paginate results page limit) results.length

/-- The paginated `results` of an orders response (empty on failure). -/
def ordersResults : OrdersOutcome → List OrderRec
  | .success rs _ => rs
  | .failure _ _ => []

/-- The `total` reported by an orders response, when it was successful. -/
def ordersTotal : OrdersOutcome → Option Nat
  | .success _ t => some t
  | .failure _ _ => none

/-! ## Users -/

/-- `interface User { id: number; name: string; email: string }`. -/
structure UserRec where
  id : Nat
  name : String
  email : String
deriving DecidableEq, Repr

/-- Users `query` criterion: case-insensitive substring of `name` or
`email`. -/
def usersQueryPred (q : String) (u : UserRec) : Bool :=
  strIncludes u.name.lowered q.lowered || strIncludes u.email.lowered q.lowered

/-- The user record list after the optional `query` criterion. -/
def searchUsersFiltered (users : List UserRec) (q : Option String) : List UserRec :=
  applyOpt q usersQueryPred users

/-- Result of one `searchUsers` request; `unauthorized` is the
pre-validation, pre-fetch 401 short-circuit. -/
inductive UsersOutcome where
  | unauthorized (status : Nat) (message : String)
  | success (results : List UserRec) (total : Nat)
  | failure (status : Nat) (body : ErrBody)
deriving DecidableEq, Repr

/-- One `searchUsers` run together with whether the upstream fetch was
issued on that control path (`axios.get` is reached only after the
`req.user` guard). -/
structure UsersRun where
  fetchInvoked : Bool
  outcome : UsersOutcome
deriving DecidableEq, Repr

/-- `SearchController.searchUsers`: `if (!req.user) { res.status(401)
.json({ message: "Authentication required" }); return; }`, then fetch,
filter by `query`, paginate, answer `{ results, total }`. -/
def searchUsers (user : Option Caller) (fetch : Except AxiosError (List UserRec))
    (q : Option String) (page limit : Nat) : UsersRun :=
  match user with
  | none => ⟨false, .unauthorized 401 "Authentication required"⟩
  | some _ =>
      match fetch with
      | .error e =>
          ⟨true, .failure (statusOr500 e) (mkErrBody "Error searching users" e)⟩
      | .ok users =>
          let results := searchUsersFiltered users q
          ⟨true, .success (paginate results page limit) results.length⟩

/-- The `total` reported by a users response, when it was successful. -/
def usersTotal : UsersOutcome → Option Nat
  | .success _ t => some t
  | _ => none

/-! ## Content and reviews -/

/-- `interface ContentItem { id: number; title: string; type: string;
body: string }`. -/
structure ContentItem where
  id : Nat
  title : String
  type : String
  body : String
deriving DecidableEq, Repr

/-- Content `query` criterion: case-insensitive substring of `title` or
`body`. -/
def contentQueryPred (q : String) (c : ContentItem) : Bool :=
  strIncludes c.title.lowered q.lowered || strIncludes c.body.lowered q.lowered

/-- Content `type` criterion: case-insensitive equality with `type`. -/
def contentTypePred (t : String) (c : ContentItem) : Bool :=
  c.type.lowered == t.lowered

/-- The content record list after the optional `query`/`type` criteria. -/
def searchContentFiltered (items : List ContentItem) (q t : Option String) :
    List ContentItem :=
  applyOpt t contentTypePred (applyOpt q contentQueryPred items)

/-- Result of one `searchContent` request. -/
inductive ContentOutcome where
  | success (results : List ContentItem) (total : Nat)
  | failure (status : Nat) (body : ErrBody)
deriving DecidableEq, Repr

/-- `SearchController.searchContent` after parameter validation. -/
def searchContent (fetch : Except AxiosError (List ContentItem))
    (q t : Option String) (page limit : Nat) : ContentOutcome :=
  match fetch with
  | .error e => .failure (statusOr500 e) (mkErrBody "Error searching content" e)
  | .ok items =>
      let results := searchContentFiltered items q t
      .success (paginate results page limit) results.length

/-- The `total` reported by a content response, when it was successful. -/
def contentTotal : ContentOutcome → Option Nat
  | .success _ t => some t
  | .failure _ _ => none

/-- `interface Review { id: number; userId: number; productId: number;
reviewRating: number; reviewMessage: string }`. -/
structure Review where
  id : Nat
  userId : Nat
  productId : Nat
  reviewRating : Nat
  reviewMessage : String
deriving DecidableEq, Repr

/-- Reviews `query` criterion with `q = query.toLowerCase()`:
`review.reviewMessage.toLowerCase().includes(q) ||
review.reviewRating.toString() === q`. -/
def reviewsQueryPred (q : String) (r : Review) : Bool :=
  strIncludes r.reviewMessage.lowered q.lowered || Nat.repr r.reviewRating == q.lowered

/-- The review record list after the optional `query` criterion. -/
def searchReviewsFiltered (reviews : List Review) (q : Option String) : List Review :=
  applyOpt q reviewsQueryPred reviews

/-- Result of one `searchReviews` request. -/
inductive ReviewsOutcome where
  | success (results : List Review) (total : Nat)
  | failure (status : Nat) (body : ErrBody)
deriving DecidableEq, Repr

/-- `SearchController.searchReviews` after parameter validation. -/
def searchReviews (fetch : Except AxiosError (List Review))
    (q : Option String) (page limit : Nat) : ReviewsOutcome :=
  match fetch with
  | .error e => .failure (statusOr500 e) (mkErrBody "Error searching reviews" e)
  | .ok reviews =>
      let results := searchReviewsFiltered reviews q
      .success (paginate results page limit) results.length

/-- The `total` reported by a reviews response, when it was successful. -/
def reviewsTotal : ReviewsOutcome → Option Nat
  | .success _ t => some t
  | .failure _ _ => none

/-! ## Helper lemmas -/

theorem String.lowered_eq_empty_iff (s : String) : s.lowered = "" ↔ s = "" := by
  cases s with
  | mk d =>
    have hz : ("" : String).data = [] := rfl
    have hmk : String.mk [] = "" := rfl
    constructor
    · intro h
      have hd : d.map Char.toLower = [] := by
        have := congrArg String.data h
        rwa [hz] at this
      have hnil : d = [] := by simpa using hd
      subst hnil
      exact hmk
    · intro h
      have hnil : d = [] := by
        have := congrArg String.data h
        rwa [hz] at this
      subst hnil
      exact hmk

theorem seqLeads_iff (n h : List Char) :
    seqLeads n h = true ↔ ∃ t, h = n ++ t := by
  induction n generalizing h with
  | nil => simp [seqLeads]
  | cons d ds ih =>
    cases h with
    | nil => simp [seqLeads]
    | cons c cs =>
      simp only [seqLeads, Bool.and_eq_true, beq_iff_eq, ih]
      constructor
      · rintro ⟨rfl, t, rfl⟩
        exact ⟨t, rfl⟩
      · rintro ⟨t, ht⟩
        cases ht
        exact ⟨rfl, t, rfl⟩

theorem seqWithin_iff (n h : List Char) :
    seqWithin n h = true ↔ ∃ p t, h = p ++ n ++ t := by
  induction h with
  | nil =>
    simp only [seqWithin, List.isEmpty_iff]
    constructor
    · rintro rfl
      exact ⟨[], [], rfl⟩
    · rintro ⟨p, t, ht⟩
      have h1 := List.append_eq_nil.mp ht.symm
      exact (List.append_eq_nil.mp h1.1).2
  | cons c cs ih =>
    simp only [seqWithin, Bool.or_eq_true, seqLeads_iff, ih]
    constructor
    · rintro (⟨t, ht⟩ | ⟨p, t, ht⟩)
      · exact ⟨[], t, by simp [ht]⟩
      · exact ⟨c :: p, t, by simp [ht]⟩
    · rintro ⟨p, t, ht⟩
      cases p with
      | nil => exact Or.inl ⟨t, by simpa using ht⟩
      | cons x xs =>
        rw [List.cons_append, List.cons_append] at ht
        injection ht with h1 h2
        exact Or.inr ⟨xs, t, h2⟩

/-- `strIncludes` is contiguous-substring occurrence. -/
theorem strIncludes_iff (hay needle : String) :
    strIncludes hay needle = true ↔ ∃ p t, hay.data = p ++ needle.data ++ t := by
  simpa [strIncludes, String.toList] using seqWithin_iff needle.data hay.data

theorem applyOpt_nil (p : Option String) (pred : String → α → Bool) :
    applyOpt p pred ([] : List α) = [] := by
  unfold applyOpt
  split <;> rfl

theorem mem_applyOpt (p : Option String) (pred : String → α → Bool)
    (xs : List α) (a : α) (h : a ∈ applyOpt p pred xs) : a ∈ xs := by
  unfold applyOpt at h
  split at h
  · exact List.mem_of_mem_filter h
  · exact h

theorem paginate_nil (page limit : Nat) : paginate ([] : List α) page limit = [] := by
  simp [paginate]

theorem mem_paginate (xs : List α) (page limit : Nat) (a : α)
    (h : a ∈ paginate xs page limit) : a ∈ xs :=
  List.mem_of_mem_drop (List.mem_of_mem_take h)

/-- The vacuous-when-absent form of one optional criterion: a record passes
the axis when the parameter is absent/empty, and must satisfy the predicate
when it is supplied. -/
def optPred (p : Option String) (pred : String → α → Bool) (a : α) : Bool :=
  if optTruthy p then pred (p.getD "") a else true

theorem applyOpt_eq_filter (p : Option String) (pred : String → α → Bool)
    (xs : List α) : applyOpt p pred xs = xs.filter (optPred p pred) := by
  by_cases h : optTruthy p = true
  · rw [applyOpt, if_pos h]
    apply List.filter_congr
    intro a _
    rw [optPred, if_pos h]
  · rw [applyOpt, if_neg h]
    refine (List.filter_eq_self.mpr ?_).symm
    intro a _
    rw [optPred, if_neg h]

/-- A record survives the inventory predicate filters iff it passes the
conjunction of the three optional criteria. -/
def invCriteria (q t fl : Option String) (item : InventoryItem) : Bool :=
  optPred q invQueryPred item && optPred t invTypePred item &&
    optPred fl invFlavorPred item

theorem searchInventoryFiltered_eq_filter (items : List InventoryItem)
    (q t fl : Option String) :
    searchInventoryFiltered items q t fl = items.filter (invCriteria q t fl) := by
  unfold searchInventoryFiltered
  rw [applyOpt_eq_filter, applyOpt_eq_filter, applyOpt_eq_filter,
    List.filter_filter, List.filter_filter]
  apply List.filter_congr
  intro a _
  unfold invCriteria
  cases optPred q invQueryPred a <;> cases optPred t invTypePred a <;>
    cases optPred fl invFlavorPred a <;> rfl

/-- A scoped order record survives the predicate filters iff it passes the
conjunction of the `query` and `status` criteria. -/
def ordersCriteria (q st : Option String) (o : OrderRec) : Bool :=
  optPred q ordersQueryPred o && optPred st ordersStatusPred o

theorem searchOrdersFiltered_eq_filter (orders : List OrderRec)
    (user : Option Caller) (q st : Option String) :
    searchOrdersFiltered orders user q st
      = (scopeOrders user orders).filter (ordersCriteria q st) := by
  unfold searchOrdersFiltered
  rw [applyOpt_eq_filter, applyOpt_eq_filter, List.filter_filter]
  apply List.filter_congr
  intro a _
  unfold ordersCriteria
  cases optPred q ordersQueryPred a <;> cases optPred st ordersStatusPred a <;> rfl

/-- A user record survives the predicate filter iff it passes the optional
`query` criterion. -/
def usersCriteria (q : Option String) (u : UserRec) : Bool :=
  optPred q usersQueryPred u

theorem searchUsersFiltered_eq_filter (users : List UserRec) (q : Option String) :
    searchUsersFiltered users q = users.filter (usersCriteria q) :=
  applyOpt_eq_filter q usersQueryPred users

/-- A content record survives the predicate filters iff it passes the
conjunction of the `query` and `type` criteria. -/
def contentCriteria (q t : Option String) (c : ContentItem) : Bool :=
  optPred q contentQueryPred c && optPred t contentTypePred c

theorem searchContentFiltered_eq_filter (items : List ContentItem)
    (q t : Option String) :
    searchContentFiltered items q t = items.filter (contentCriteria q t) := by
  unfold searchContentFiltered
  rw [applyOpt_eq_filter, applyOpt_eq_filter, List.filter_filter]
  apply List.filter_congr
  intro a _
  unfold contentCriteria
  cases optPred q contentQueryPred a <;> cases optPred t contentTypePred a <;> rfl

/-- A review record survives the predicate filter iff it passes the optional
`query` criterion. -/
def reviewsCriteria (q : Option String) (r : Review) : Bool :=
  optPred q reviewsQueryPred r

theorem searchReviewsFiltered_eq_filter (reviews : List Review) (q : Option String) :
    searchReviewsFiltered reviews q = reviews.filter (reviewsCriteria q) :=
  applyOpt_eq_filter q reviewsQueryPred reviews

/-! ## Claims -/

/-- C1: for every resource kind, every fetched collection and all request
parameters, the `total` of a successful response equals the number of
records that survive the scope and predicate filters before pagination, and
it is unchanged when only `page`/`limit` vary. -/
theorem response_total_is_filtered_count
    (inv : List InventoryItem) (orders : List OrderRec) (users : List UserRec)
    (content : List ContentItem) (reviews : List Review)
    (user : Option Caller) (caller : Caller)
    (q t fl st : Option String) (page limit pg lim : Nat) :
    invTotal (searchInventory (.ok inv) q t fl page limit)
        = some (inv.countP (invCriteria q t fl))
    ∧ invTotal (searchInventory (.ok inv) q t fl page limit)
        = invTotal (searchInventory (.ok inv) q t fl pg lim)
    ∧ ordersTotal (searchOrders (.ok orders) user q st page limit)
        = some ((scopeOrders user orders).countP (ordersCriteria q st))
    ∧ ordersTotal (searchOrders (.ok orders) user q st page limit)
        = ordersTotal (searchOrders (.ok orders) user q st pg lim)
    ∧ usersTotal (searchUsers (some caller) (.ok users) q page limit).outcome
        = some (users.countP (usersCriteria q))
    ∧ usersTotal (searchUsers (some caller) (.ok users) q page limit).outcome
        = usersTotal (searchUsers (some caller) (.ok users) q pg lim).outcome
    ∧ contentTotal (searchContent (.ok content) q t page limit)
        = some (content.countP (contentCriteria q t))
    ∧ contentTotal (searchContent (.ok content) q t page limit)
        = contentTotal (searchContent (.ok content) q t pg lim)
    ∧ reviewsTotal (searchReviews (.ok reviews) q page limit)
        = some (reviews.countP (reviewsCriteria q))
    ∧ reviewsTotal (searchReviews (.ok reviews) q page limit)
        = reviewsTotal (searchReviews (.ok reviews) q pg lim) := by
  refine ⟨?_, rfl, ?_, rfl, ?_, rfl, ?_, rfl, ?_, rfl⟩
  · show some (searchInventoryFiltered inv q t fl).length = _
    rw [searchInventoryFiltered_eq_filter, List.countP_eq_length_filter]
  · show some (searchOrdersFiltered orders user q st).length = _
    rw [searchOrdersFiltered_eq_filter, List.countP_eq_length_filter]
  · show some (searchUsersFiltered users q).length = _
    rw [searchUsersFiltered_eq_filter, List.countP_eq_length_filter]
  · show some (searchContentFiltered content q t).length = _
    rw [searchContentFiltered_eq_filter, List.countP_eq_length_filter]
  · show some (searchReviewsFiltered reviews q).length = _
    rw [searchReviewsFiltered_eq_filter, List.countP_eq_length_filter]

/-- C2: with a caller identity present, `searchOrders` applies the identity
scope filter before the `query`/`status` criteria, and every record in the
returned results satisfies the scope comparison with the caller's id (so no
returned record has an owner field different from the caller's id). -/
theorem orders_scoping_first_and_owner_equal (orders : List OrderRec)
    (uid : Int) (email : String) (q st : Option String) (page limit : Nat) :
    searchOrdersFiltered orders (some ⟨uid, email⟩) q st
        = applyOpt st ordersStatusPred (applyOpt q ordersQueryPred
            (orders.filter (ordersScopePred uid)))
    ∧ (ordersResults (searchOrders (.ok orders) (some ⟨uid, email⟩) q st page limit)).all
        (ordersScopePred uid) = true := by
  refine ⟨rfl, ?_⟩
  rw [List.all_eq_true]
  intro a ha
  have h1 : a ∈ searchOrdersFiltered orders (some ⟨uid, email⟩) q st :=
    mem_paginate _ page limit a ha
  have h2 : a ∈ applyOpt q ordersQueryPred (scopeOrders (some ⟨uid, email⟩) orders) :=
    mem_applyOpt st ordersStatusPred _ a h1
  have h3 : a ∈ orders.filter (ordersScopePred uid) :=
    mem_applyOpt q ordersQueryPred _ a h2
  exact List.of_mem_filter h3

/-- C3: with no caller identity, `searchUsers` answers 401 with body
`{ message: "Authentication required" }` and the upstream fetch is never
invoked (the outcome does not depend on the fetch, and the fetch flag of the
run is `false`). -/
theorem users_no_identity_unauthorized (fetch : Except AxiosError (List UserRec))
    (q : Option String) (page limit : Nat) :
    searchUsers none fetch q page limit
      = ⟨false, .unauthorized 401 "Authentication required"⟩ := rfl

/-- C5 (the code at the failing input): `searchOrders` returns upstream
records unchanged — an order whose `TotalPrice` arrives as the decimal
string `"10.99"` is returned with the string, not the number; there is no
normalization step.  This contradicts the repository's own test
(`searchController.test.ts`, "should search orders with filters"), which
expects `TotalPrice: 10.99` as a number. -/
theorem orders_string_totalPrice_passthrough :
    searchOrders (.ok [⟨1, "1", JSValue.str "10.99", "Pending"⟩]) none none none 1 10
        = .success [⟨1, "1", JSValue.str "10.99", "Pending"⟩] 1
    ∧ (∀ n : Int, JSValue.str "10.99" ≠ JSValue.num n) := by
  refine ⟨rfl, ?_⟩
  intro n h
  exact JSValue.noConfusion h

/-- C7: an upstream rejection carrying
`{status: 500, data: {message: "Server error"}}` maps to status 500 and body
`{message: "Server error", error: undefined}`; a transport-level rejection
with only `message: "Network error"` maps to status 500 and body
`{message: "Error searching inventory", error: "Network error"}`. -/
theorem inventory_error_mapping (q t fl : Option String) (page limit : Nat) :
    searchInventory
        (.error ⟨some ⟨500, some ⟨some "Server error", none⟩⟩, none⟩)
        q t fl page limit
      = .failure 500 ⟨"Server error", none⟩
    ∧ searchInventory (.error ⟨none, some "Network error"⟩) q t fl page limit
      = .failure 500 ⟨"Error searching inventory", some "Network error"⟩ :=
  ⟨rfl, rfl⟩

/-- C10: the scope comparison `order.user === req.user.id` holds a string
on the left and a number on the right, and strict equality across types is
always false — so for every authenticated caller and every order collection
(whose owner fields are strings, as `interface Order` declares), the
response is `{results: [], total: 0}` whatever `query`/`status` are. -/
theorem orders_scope_mismatch_returns_empty (orders : List OrderRec)
    (uid : Int) (email : String) (q st : Option String) (page limit : Nat) :
    searchOrders (.ok orders) (some ⟨uid, email⟩) q st page limit
      = .success [] 0 := by
  have hscope : scopeOrders (some ⟨uid, email⟩) orders = [] := by
    show orders.filter (ordersScopePred uid) = []
    apply List.filter_eq_nil_iff.mpr
    intro a _
    show ¬ jsStrictEq (JSValue.str a.user) (JSValue.num uid) = true
    simp [jsStrictEq]
  have hfil : searchOrdersFiltered orders (some ⟨uid, email⟩) q st = [] := by
    unfold searchOrdersFiltered
    rw [hscope, applyOpt_nil, applyOpt_nil]
  show OrdersOutcome.success
      (paginate (searchOrdersFiltered orders (some ⟨uid, email⟩) q st) page limit)
      (searchOrdersFiltered orders (some ⟨uid, email⟩) q st).length
    = OrdersOutcome.success [] 0
  rw [hfil, paginate_nil, List.length_nil]

/-- C4: for positive `page`/`limit`, `paginate` is the window
`[(page-1)*limit, (page-1)*limit + limit)` clipped to the bounds: its length
is `min limit (n - start)`, its `i`-th element is the input's
`start + i`-th, it never exceeds `limit` records, a `start` at or past the
end yields `[]` (never an error), and the reported `total` of a response is
unaffected by the page chosen. -/
theorem paginate_window (records : List Nat) (page limit : Nat)
    (_hp : 1 ≤ page) (_hl : 1 ≤ limit)
    (items : List InventoryItem) (q t fl : Option String) (pg : Nat) :
    (paginate records page limit).length
        = min limit (records.length - (page - 1) * limit)
    ∧ (∀ i : Nat, i < limit →
        (paginate records page limit)[i]? = records[(page - 1) * limit + i]?)
    ∧ (paginate records page limit).length ≤ limit
    ∧ (records.length ≤ (page - 1) * limit → paginate records page limit = [])
    ∧ invTotal (searchInventory (.ok items) q t fl page limit)
        = invTotal (searchInventory (.ok items) q t fl pg limit) := by
  refine ⟨?_, ?_, ?_, ?_, rfl⟩
  · simp [paginate]
  · intro i hi
    rw [paginate, List.getElem?_take, if_pos hi, List.getElem?_drop]
  · show ((records.drop ((page - 1) * limit)).take limit).length ≤ limit
    exact List.length_take_le limit _
  · intro h
    rw [paginate, List.drop_eq_nil_of_le h, List.take_nil]

/-- Witness for `paginate_window` at `records = [10, 20, 30]`, `page = 2`,
`limit = 2`: the second page is `[30]`. -/
theorem paginate_window_witness :
    1 ≤ 2 ∧ 1 ≤ 2
    ∧ ((paginate [10, 20, 30] 2 2).length
          = min 2 ([10, 20, 30].length - (2 - 1) * 2)
        ∧ (∀ i : Nat, i < 2 →
            (paginate [10, 20, 30] 2 2)[i]? = [10, 20, 30][(2 - 1) * 2 + i]?)
        ∧ (paginate [10, 20, 30] 2 2).length ≤ 2
        ∧ ([10, 20, 30].length ≤ (2 - 1) * 2 → paginate [10, 20, 30] 2 2 = [])
        ∧ invTotal (searchInventory (.ok []) none none none 2 2)
            = invTotal (searchInventory (.ok []) none none none 1 2)) :=
  ⟨by decide, by decide,
    paginate_window [10, 20, 30] 2 2 (by decide) (by decide) [] none none none 1⟩

/-- The orders query criterion as the claim words it: the query is
case-insensitively EQUAL to the decimal-string rendering of the record's id,
or to the decimal-string owner id held in `user` — an exact token match on
both disjuncts, no substring matching. -/
def claimOrdersQueryMatch (q : String) (o : OrderRec) : Bool :=
  q.lowered == (Nat.repr o.id).lowered || q.lowered == o.user.lowered

/-- C6 counterexample: for the order `{id: 1, user: "42"}` and query `"2"`,
the code's predicate retains the record (`"42".includes("2")` is a substring
hit) although `"2"` is not equal to `"1"` nor to `"42"`, so the claimed
exact-token predicate rejects it. -/
theorem ordersQueryPred_not_exact_token :
    ordersQueryPred "2" ⟨1, "42", JSValue.num 0, "Pending"⟩ = true
    ∧ claimOrdersQueryMatch "2" ⟨1, "42", JSValue.num 0, "Pending"⟩ = false := by
  constructor
  · decide
  · decide

/-- C6 amended: the orders query predicate retains a record iff the
lowercased query equals the decimal rendering of `id` (exact match), or the
lowercased query occurs as a contiguous substring of the lowercased `user`
(owner) string — substring containment, not an exact token match. -/
theorem ordersQueryPred_characterization (q : String) (o : OrderRec) :
    ordersQueryPred q o = true ↔
      q.lowered = Nat.repr o.id
      ∨ ∃ p t, o.user.lowered.data = p ++ q.lowered.data ++ t := by
  unfold ordersQueryPred
  rw [Bool.or_eq_true, beq_iff_eq, strIncludes_iff]
  constructor
  · rintro (h | h)
    · exact Or.inl h.symm
    · exact Or.inr h
  · rintro (h | h)
    · exact Or.inl h.symm
    · exact Or.inr h

/-- C8: the inventory `type` filter is case-insensitive — two type
parameters with the same lowercasing produce identical responses, all other
parameters held fixed. -/
theorem inventory_type_case_insensitive (items : List InventoryItem)
    (q fl : Option String) (page limit : Nat) (t1 t2 : String)
    (h : t1.lowered = t2.lowered) :
    searchInventory (.ok items) q (some t1) fl page limit
      = searchInventory (.ok items) q (some t2) fl page limit := by
  have htr : optTruthy (some t1) = optTruthy (some t2) := by
    show (!(t1 == "")) = (!(t2 == ""))
    have hb : (t1 == "") = (t2 == "") := by
      rw [Bool.eq_iff_iff, beq_iff_eq, beq_iff_eq]
      constructor
      · intro h1
        have hl1 : t1.lowered = "" := by rw [h1]; rfl
        exact (String.lowered_eq_empty_iff t2).mp (h.symm.trans hl1)
      · intro h2
        have hl2 : t2.lowered = "" := by rw [h2]; rfl
        exact (String.lowered_eq_empty_iff t1).mp (h.trans hl2)
    rw [hb]
  have happ : applyOpt (some t1) invTypePred (applyOpt q invQueryPred items)
      = applyOpt (some t2) invTypePred (applyOpt q invQueryPred items) := by
    unfold applyOpt
    rw [htr]
    by_cases h2 : optTruthy (some t2) = true
    · rw [if_pos h2, if_pos h2]
      apply List.filter_congr
      intro a _
      show invTypePred t1 a = invTypePred t2 a
      unfold invTypePred
      rw [h]
    · rw [if_neg h2, if_neg h2]
  have hfil : searchInventoryFiltered items q (some t1) fl
      = searchInventoryFiltered items q (some t2) fl := by
    unfold searchInventoryFiltered
    rw [happ]
  show InvOutcome.success
      (paginate (searchInventoryFiltered items q (some t1) fl) page limit)
      (searchInventoryFiltered items q (some t1) fl).length
    = InvOutcome.success
      (paginate (searchInventoryFiltered items q (some t2) fl) page limit)
      (searchInventoryFiltered items q (some t2) fl).length
  rw [hfil]

/-- Witness for `inventory_type_case_insensitive`: `type="Beer"` and
`type="beer"` give the same response on a concrete collection. -/
theorem inventory_type_case_insensitive_witness :
    "Beer".lowered = "beer".lowered
    ∧ searchInventory
        (.ok [⟨1, "Hoppy Beer", "Beer", "A hoppy delight",
          some ⟨some "Hoppy", none, none⟩⟩]) none (some "Beer") none 1 10
      = searchInventory
        (.ok [⟨1, "Hoppy Beer", "Beer", "A hoppy delight",
          some ⟨some "Hoppy", none, none⟩⟩]) none (some "beer") none 1 10 :=
  ⟨by decide,
    inventory_type_case_insensitive _ none none 1 10 "Beer" "beer" (by decide)⟩

theorem optLowerEq_iff (o : Option String) (f : String) :
    optLowerEq o f = true ↔ ∃ s, o = some s ∧ s.lowered = f := by
  cases o with
  | none => simp [optLowerEq]
  | some s => simp [optLowerEq]

/-- C9: the flavor predicate retains a record iff the parameter is
case-insensitively equal to at least one present sub-field of
`tasteProfile`; a record with no `tasteProfile` at all never matches, and
the predicate is total (absence is non-matching, not an error). -/
theorem flavor_match_characterization (fl : String) (item : InventoryItem) :
    (invFlavorPred fl item = true ↔
      ∃ s : String,
        (item.tasteProfile.bind (·.primaryFlavor) = some s
          ∨ item.tasteProfile.bind (·.sweetness) = some s
          ∨ item.tasteProfile.bind (·.bitterness) = some s)
        ∧ s.lowered = fl.lowered)
    ∧ (∀ i nm ty d, invFlavorPred fl ⟨i, nm, ty, d, none⟩ = false) := by
  constructor
  · simp only [invFlavorPred, Bool.or_eq_true, optLowerEq_iff]
    constructor
    · rintro ((⟨s, hs, hl⟩ | ⟨s, hs, hl⟩) | ⟨s, hs, hl⟩)
      · exact ⟨s, Or.inl hs, hl⟩
      · exact ⟨s, Or.inr (Or.inl hs), hl⟩
      · exact ⟨s, Or.inr (Or.inr hs), hl⟩
    · rintro ⟨s, hs | hs | hs, hl⟩
      · exact Or.inl (Or.inl ⟨s, hs, hl⟩)
      · exact Or.inl (Or.inr ⟨s, hs, hl⟩)
      · exact Or.inr ⟨s, hs, hl⟩
  · intro i nm ty d
    rfl
